import Mathlib

/-!
# Verification of `scrapy_magicfields/middleware.py`

A shallow embedding of the magic-fields spider middleware.  Strings are
modelled as `List Char`; Python dictionaries as association lists (first
match wins on lookup, insertion appends at the end); Python exceptions as
an explicit `Except PyError` result; the two module-level caches
`_REGEXES` / `_REGEX_ERRORS` and the spider's log as explicit state that
is threaded through every call.

The Python `re` library is an external collaborator: it is modelled by a
`RegexEngine` record (a compile function producing either a pattern value
or an error message, plus a search function returning the groups of the
leftmost match).  Theorems that quantify over "every pattern" quantify
over the engine; concrete witnesses use `pyEngine`, a small executable
backtracking engine faithful to Python semantics (leftmost match, greedy
repetition, left-biased alternation, groups unset when their branch did
not participate) on the regex subset exercised here.
-/

namespace MagicFields

/-- Abbreviation: Python strings are modelled as lists of characters. -/
abbrev Str := List Char

/-- Convert a Lean string literal into the model's string type. -/
def chars (s : String) : Str := s.data

/-- Lookup in an association list modelling a Python dict
(`d.get(k)` / `k in d`): first binding for the key wins. -/
def alookup {α : Type} : List (Str × α) → Str → Option α
  | [], _ => none
  | (k, v) :: t, k' => if k = k' then some v else alookup t k'

/-- Does `pat` occur at the start of `s`? (model of `str.startswith`). -/
def startsWith : Str → Str → Bool
  | [], _ => true
  | _ :: _, [] => false
  | p :: ps, c :: cs => p = c && startsWith ps cs

/-- `out.replace(pat, val, 1)`: replace the first (leftmost) occurrence of
`pat` in `s` by `val`; if `pat` does not occur, return `s` unchanged.
As in Python, an empty `pat` matches at position 0. -/
def replaceFirst (s pat val : Str) : Str :=
  match s with
  | [] => if startsWith pat [] then val else []
  | c :: t => if startsWith pat (c :: t) then val ++ (c :: t).drop pat.length
              else c :: replaceFirst t pat val

/-! ## Regex engine model (Python `re`, external collaborator)

The abstract syntax covers the constructs the middleware's documented and
tested patterns use: literal characters, the `\d`/`\w` classes, `.`,
grouping, alternation, and `+`/`*` repetition. -/

/-- Regex abstract syntax.  `group` carries the group number assigned in
opening-parenthesis order, as Python does. -/
inductive RE : Type where
  | eps : RE
  | lit : Char → RE
  | digit : RE
  | wordc : RE
  | anyc : RE
  | eol : RE
  | seqr : RE → RE → RE
  | altr : RE → RE → RE
  | starr : RE → RE
  | group : Nat → RE → RE
deriving DecidableEq

/-- Number of capturing groups in a pattern (`re.Pattern.groups`). -/
def RE.groupCount : RE → Nat
  | .eps | .lit _ | .digit | .wordc | .anyc | .eol => 0
  | .seqr a b => a.groupCount + b.groupCount
  | .altr a b => a.groupCount + b.groupCount
  | .starr a => a.groupCount
  | .group _ a => a.groupCount + 1

/-- Group assignment produced by a match: group number to captured text. -/
abbrev Groups := List (Nat × Str)

def isDigitCh (c : Char) : Bool := '0' ≤ c && c ≤ '9'

def isWordCh (c : Char) : Bool :=
  ('a' ≤ c && c ≤ 'z') || ('A' ≤ c && c ≤ 'Z') || isDigitCh c || c = '_'

/-- Structural size of a pattern, used to budget the matcher's fuel. -/
def RE.size : RE → Nat
  | .eps | .lit _ | .digit | .wordc | .anyc | .eol => 1
  | .seqr a b => a.size + b.size + 1
  | .altr a b => a.size + b.size + 1
  | .starr a => a.size + 1
  | .group _ a => a.size + 1

/-- Backtracking matcher.  `mrun fuel r s g` returns the possible
(remaining-suffix, groups) outcomes of matching `r` against a prefix of
`s`, in Python's backtracking preference order: greedy repetition tries
the longer continuation first, alternation tries the left branch first.
Each iteration of a star must consume at least one character (Python
does not repeat an empty match), so the recursion depth is bounded by
`(r.size + 1) * (s.length + 2)` and that much fuel always suffices;
`fuel` only makes the recursion structural. -/
def mrun : Nat → RE → Str → Groups → List (Str × Groups)
  | 0, _, _, _ => []
  | fuel + 1, r, s, g =>
      match r with
      | .eps => [(s, g)]
      | .lit c =>
          match s with
          | [] => []
          | x :: t => if x = c then [(t, g)] else []
      | .digit =>
          match s with
          | [] => []
          | x :: t => if isDigitCh x then [(t, g)] else []
      | .wordc =>
          match s with
          | [] => []
          | x :: t => if isWordCh x then [(t, g)] else []
      | .anyc =>
          match s with
          | [] => []
          | x :: t => if x = '\n' then [] else [(t, g)]
      | .eol =>
          match s with
          | [] => [(s, g)]
          | _ :: _ => []
      | .seqr a b =>
          (mrun fuel a s g).flatMap (fun p => mrun fuel b p.1 p.2)
      | .altr a b => mrun fuel a s g ++ mrun fuel b s g
      | .starr r' =>
          ((mrun fuel r' s g).filter (fun p => p.1.length < s.length)).flatMap
            (fun p => mrun fuel (.starr r') p.1 p.2) ++ [(s, g)]
      | .group i r' =>
          (mrun fuel r' s g).map
            (fun p => (p.1, (i, s.take (s.length - p.1.length)) :: p.2))

/-- All groups of a match, in group-number order; `none` for a group whose
branch did not participate (`m.groups()`). -/
def groupsOf (r : RE) (g : Groups) : List (Option Str) :=
  (List.range r.groupCount).map (fun i =>
    (g.find? (fun p => p.1 = i + 1)).map (·.2))

/-- `pattern.search(txt)`: try each start position left to right; at the
first position where the pattern matches, return the groups of the
preferred (first) outcome. -/
def reSearch (r : RE) (txt : Str) : Option (List (Option Str)) :=
  match mrun ((r.size + 1) * (txt.length + 2)) r txt [] with
  | (_, g) :: _ => some (groupsOf r g)
  | [] =>
      match txt with
      | [] => none
      | _ :: t => reSearch r t

/-! ### Pattern parser (model of `re.compile` on the supported subset)

Characters with a meaning the model does not implement are rejected with
a compile error, so that no supported-looking pattern silently diverges
from Python.  An unmatched parenthesis is reported with Python's
"unbalanced parenthesis" message. -/

/-- Characters the parser treats specially. -/
def isMetaCh (c : Char) : Bool :=
  c = '(' || c = ')' || c = '|' || c = '+' || c = '*' || c = '\\'

/-- Characters the model refuses to compile (Python gives them a meaning
the model does not implement). -/
def isUnsupportedCh (c : Char) : Bool :=
  c = '[' || c = ']' || c = '{' || c = '\x7d' || c = '?' || c = '^'

/-- Fold completed alternatives (held in reverse) around the current
sequence. -/
def finishAlts (acc : RE) (alts : List RE) : RE :=
  alts.foldl (fun r a => .altr a r) acc

/-- Attach a postfix `+` or `*` to the atom just parsed. -/
def applyPostfix (atom : RE) (t : Str) : RE × Str :=
  match t with
  | '+' :: u => (.seqr atom (.starr atom), u)
  | '*' :: u => (.starr atom, u)
  | _ => (atom, t)

/-- Parse one alternation level.  Arguments: fuel, input, next free
group number, `true` when inside parentheses, the sequence parsed so far
and the completed alternatives (in reverse).  Returns the parsed regex,
the rest of the input, and the next group number.  Every recursive call
decreases the fuel; `2 * input.length + 2` always suffices. -/
def parseGo : Nat → Str → Nat → Bool → RE → List RE →
    Except Str (RE × Str × Nat)
  | 0, _, _, _, _, _ => .error (chars "internal error")
  | _ + 1, [], gn, inGroup, acc, alts =>
      if inGroup then .error (chars "unbalanced parenthesis")
      else .ok (finishAlts acc alts, [], gn)
  | fuel + 1, c :: t, gn, inGroup, acc, alts =>
      if c = ')' then
        if inGroup then .ok (finishAlts acc alts, t, gn)
        else .error (chars "unbalanced parenthesis")
      else if c = '|' then parseGo fuel t gn inGroup .eps (acc :: alts)
      else if c = '(' then
        match parseGo fuel t (gn + 1) true .eps [] with
        | .error e => .error e
        | .ok (inner, t', gn') =>
            let (atom, t'') := applyPostfix (.group gn inner) t'
            parseGo fuel t'' gn' inGroup (.seqr acc atom) alts
      else if c = '\\' then
        match t with
        | [] => .error (chars "bogus escape (end of line)")
        | e :: t' =>
            if e = 'd' then
              let (atom, t'') := applyPostfix .digit t'
              parseGo fuel t'' gn inGroup (.seqr acc atom) alts
            else if e = 'w' then
              let (atom, t'') := applyPostfix .wordc t'
              parseGo fuel t'' gn inGroup (.seqr acc atom) alts
            else if isMetaCh e || e = '\'' then
              let (atom, t'') := applyPostfix (.lit e) t'
              parseGo fuel t'' gn inGroup (.seqr acc atom) alts
            else .error (chars "unsupported escape")
      else if c = '+' || c = '*' then .error (chars "nothing to repeat")
      else if isUnsupportedCh c then .error (chars "unsupported construct")
      else
        let atom : RE := if c = '.' then .anyc
          else if c = '$' then .eol else .lit c
        let (atom', t'') := applyPostfix atom t
        parseGo fuel t'' gn inGroup (.seqr acc atom') alts

/-- Model of `re.compile`: parse the pattern or produce the error message
(`e.message` of the raised exception). -/
def pyCompile (pat : Str) : Except Str RE :=
  match parseGo (2 * pat.length + 2) pat 1 false .eps [] with
  | .ok (r, _, _) => .ok r
  | .error e => .error e

/-- The regex engine as seen by the middleware: `compile` and a search
returning the groups of the leftmost match, or `none` when there is no
match.  Theorems about "every pattern" quantify over the engine. -/
structure RegexEngine where
  compile : Str → Except Str RE
  search : RE → Str → Option (List (Option Str))

/-- The concrete engine used for witnesses: the model of Python `re`. -/
def pyEngine : RegexEngine := ⟨pyCompile, reSearch⟩

/-! ## Placeholder scanner

Model of `_ENTITIES_RE = re.compile("(\$[a-z]+)(:\w+)?(?:,r\'(.+)\')?")`
and its use through `finditer`. -/

/-- One scanner match: `text` is `m.group()`, `entity` is group 1 (with
the `$` marker), `argsRaw` group 2 (with the leading `:`), `regex`
group 3. -/
structure PMatch where
  text : Str
  entity : Str
  argsRaw : Option Str
  regex : Option Str
deriving DecidableEq

def isLowerAZ (c : Char) : Bool := 'a' ≤ c && c ≤ 'z'

/-- For the greedy `(.+)\'` tail of the scanner regex: find the longest
newline-free prefix of `l` that is followed by a quote; return that
prefix and the input after the quote.  (`.` does not match a newline,
and the engine backtracks from the longest candidate, so the capture
runs to the last quote before any newline.)  The `.+` nonemptiness check
is done by the caller. -/
def lastQuoteSplit : Str → Option (Str × Str)
  | [] => none
  | c :: t =>
      if c = '\n' then none
      else
        match lastQuoteSplit t with
        | some (content, rest) => some (c :: content, rest)
        | none => if c = '\'' then some ([], t) else none

/-- The optional `(:\w+)?` group of the scanner regex: split off a colon
followed by one or more word characters (greedy); otherwise consume
nothing. -/
def argsSplit (r1 : Str) : Option Str × Str :=
  match r1 with
  | c :: r1' =>
      if c = ':' then
        let w := r1'.takeWhile isWordCh
        if w = [] then ((none : Option Str), c :: r1')
        else (some (':' :: w), r1'.dropWhile isWordCh)
      else (none, c :: r1')
  | [] => (none, [])

/-- The optional `(?:,r\'(.+)\')?` group of the scanner regex: split off
`,r'`, a nonempty greedy capture, and the closing quote; otherwise
consume nothing. -/
def regexSplit (r2 : Str) : Option Str × Str :=
  match r2 with
  | c1 :: c2 :: c3 :: r2' =>
      if c1 = ',' ∧ c2 = 'r' ∧ c3 = '\'' then
        match lastQuoteSplit r2' with
        | some (content, rest') =>
            if content = [] then ((none : Option Str), c1 :: c2 :: c3 :: r2')
            else (some content, rest')
        | none => ((none : Option Str), c1 :: c2 :: c3 :: r2')
      else (none, c1 :: c2 :: c3 :: r2')
  | _ => (none, r2)

/-- The text consumed by the regex-literal group, as it appears in the
whole match (`m.group()`). -/
def regexText (rx : Option Str) : Str :=
  match rx with
  | some c => ',' :: 'r' :: '\'' :: (c ++ ['\''])
  | none => []

/-- Match the scanner regex at the start of `s`; on success return the
parsed match and the rest of the input after it.  Both optional groups
are greedy; if the `,r'...'` tail cannot complete, the whole optional
group matches empty, as in Python. -/
def matchAt (s : Str) : Option (PMatch × Str) :=
  match s with
  | c :: rest =>
      if c = '$' then
        let letters := rest.takeWhile isLowerAZ
        if letters = [] then none
        else
          let (argsRaw, r2) := argsSplit (rest.dropWhile isLowerAZ)
          let (rx, r3) := regexSplit r2
          let text := '$' :: letters ++ argsRaw.getD [] ++ regexText rx
          some (⟨text, '$' :: letters, argsRaw, rx⟩, r3)
      else none
  | [] => none

/-- `finditer`: scan left to right; emit each non-overlapping match and
continue after it, otherwise advance one character. -/
def finditerAux : Nat → Str → List PMatch
  | 0, _ => []
  | _ + 1, [] => []
  | fuel + 1, s =>
      match matchAt s with
      | some (m, r) => m :: finditerAux fuel r
      | none => finditerAux fuel s.tail

def finditer (s : Str) : List PMatch := finditerAux s.length s

/-- `filter(None, (args or ':')[1:].split(','))`: strip the leading colon,
split on commas, drop empty tokens. -/
def parseArgs (argsRaw : Option Str) : List Str :=
  (((argsRaw.getD [':']).drop 1).splitOn ',').filter (fun a => a ≠ [])

/-! ## Middleware state, context and errors -/

/-- Python exceptions the embedded code can raise.
`valueError` is raised by `_extract_regex_group` and is the only kind
`_format` catches; the others propagate out of the middleware. -/
inductive PyError : Type where
  /-- `ValueError(errmessage)` raised for a memoized compile failure. -/
  | valueError : Str → PyError
  /-- `KeyError` from `val[attr]` on a missing settings key. -/
  | keyError : Str → PyError
  /-- `TypeError`, e.g. `"".join` over a tuple containing `None`,
  `compiled.search(None)`, or `out.replace` with a non-string value. -/
  | typeError : PyError
  /-- `AttributeError`, e.g. `None.replace(...)` or `None.search(...)`. -/
  | attributeError : PyError
deriving DecidableEq

instance {ε α : Type} [DecidableEq ε] [DecidableEq α] :
    DecidableEq (Except ε α) := fun x y =>
  match x, y with
  | .ok a, .ok b =>
      if h : a = b then isTrue (by rw [h])
      else isFalse (fun hh => by cases hh; exact h rfl)
  | .ok _, .error _ => isFalse (fun hh => by cases hh)
  | .error _, .ok _ => isFalse (fun hh => by cases hh)
  | .error a, .error b =>
      if h : a = b then isTrue (by rw [h])
      else isFalse (fun hh => by cases hh; exact h rfl)

/-- The two module-level caches `_REGEXES` and `_REGEX_ERRORS`. -/
structure Cache where
  regexes : List (Str × RE)
  regexErrors : List (Str × Str)
deriving DecidableEq

def emptyCache : Cache := ⟨[], []⟩

/-- Run state threaded through a call: the regex caches plus the
messages passed to `spider.log` so far (oldest first). -/
structure RunState where
  cache : Cache
  log : List Str
deriving DecidableEq

/-- Evaluation context: the external collaborators of one
`process_spider_output` call.  Attribute reads on the spider and the
response are modelled post-`str` (`none` = `hasattr` is false); settings
values are modelled post-`str`; the wall-clock reads `_time()`,
`time.time()` and `_isotime()` are modelled as fixed context strings. -/
structure Ctx where
  spiderAttrs : Str → Option Str
  responseAttrs : Str → Option Str
  env : Str → Option Str
  settings : List (Str × Str)
  jobtime : Str
  timeStr : Str
  unixtimeStr : Str
  isotimeStr : Str

/-- An item is a string-keyed mapping; a value of `none` models a field
holding Python `None` (which `setdefault` can store). -/
abbrev Item := List (Str × Option Str)

/-- `str(v)` for an item value: `None` renders as `"None"`. -/
def pyStrOpt : Option Str → Str
  | some s => s
  | none => chars "None"

/-! ## `_extract_regex_group` -/

/-- Model of `_extract_regex_group(regex, txt)` with the caches made
explicit.  Mirrors the source line by line: consult both caches; when
neither has the pattern, compile and store the compiled pattern or the
error message; `if errmessage:` re-raise `ValueError(errmessage)` (the
truthiness test skips an empty stored message); otherwise search `txt`
and return `"".join(m.groups()) or None` — where joining a tuple that
contains `None` (a group that did not participate) raises `TypeError`,
and `compiled.search(None)` (a `None` text) raises as well. -/
def extractRegexGroup (eng : RegexEngine) (regex : Str) (txt : Option Str)
    (c : Cache) : Cache × Except PyError (Option Str) :=
  let compiled0 := alookup c.regexes regex
  let errmessage0 := alookup c.regexErrors regex
  let (compiled, errmessage, c') :=
    if compiled0 = none ∧ errmessage0 = none then
      match eng.compile regex with
      | .ok p => (some p, (none : Option Str),
          { c with regexes := c.regexes ++ [(regex, p)] })
      | .error e => ((none : Option RE), some e,
          { c with regexErrors := c.regexErrors ++ [(regex, e)] })
    else (compiled0, errmessage0, c)
  match errmessage with
  | some e =>
      if e = [] then (c', .error .attributeError)
      else (c', .error (.valueError e))
  | none =>
      match compiled with
      | none => (c', .error .attributeError)
      | some p =>
          match txt with
          | none => (c', .error .typeError)
          | some t =>
              match eng.search p t with
              | none => (c', .ok none)
              | some gs =>
                  if gs.all (fun g => g.isSome) then
                    let j := gs.foldr (fun g acc => g.getD [] ++ acc) []
                    (c', .ok (if j = [] then none else some j))
                  else (c', .error .typeError)

/-! ## `_format` -/

/-- The value computed for a placeholder: either a Python string, or the
raw settings object (`fixed_values["$setting"]` when no key argument is
given — the code does not apply `str` to it in that case). -/
inductive RVal : Type where
  | str : Str → RVal
  | settingsObj : RVal
deriving DecidableEq

/-- The dispatch chain of `_format` for one scanner match: compute `val`
(or raise), emitting `spider.log` messages.  Mirrors the
`if/elif` chain of the source in order.  Returns the emitted log
messages and the outcome. -/
def resolveVal (ctx : Ctx) (item : Item) (m : PMatch) :
    List Str × Except PyError (Option RVal) :=
  let args := parseArgs m.argsRaw
  let attr := args.head?
  if m.entity = chars "$jobid" then
    ([], .ok (some (.str ((ctx.env (chars "SCRAPY_JOB")).getD []))))
  else if m.entity = chars "$spider" then
    match attr with
    | none =>
        ([chars "Error at '" ++ m.text ++
          chars "': spider does not have attribute"], .ok none)
    | some a =>
        match ctx.spiderAttrs a with
        | none =>
            ([chars "Error at '" ++ m.text ++
              chars "': spider does not have attribute"], .ok none)
        | some v => ([], .ok (some (.str v)))
  else if m.entity = chars "$response" then
    match attr with
    | none =>
        ([chars "Error at '" ++ m.text ++
          chars "': response does not have attribute"], .ok none)
    | some a =>
        match ctx.responseAttrs a with
        | none =>
            ([chars "Error at '" ++ m.text ++
              chars "': response does not have attribute"], .ok none)
        | some v => ([], .ok (some (.str v)))
  else if m.entity = chars "$field" then
    match attr with
    | none => ([], .ok none)
    | some a =>
        match alookup item a with
        | some v => ([], .ok (some (.str (pyStrOpt v))))
        | none => ([], .ok none)
  else if m.entity = chars "$jobtime" then
    ([], .ok (some (.str ctx.jobtime)))
  else if m.entity = chars "$setting" then
    match attr with
    | none => ([], .ok (some .settingsObj))
    | some a =>
        match alookup ctx.settings a with
        | some v => ([], .ok (some (.str v)))
        | none => ([], .error (.keyError a))
  else if m.entity = chars "$env" then
    match attr with
    | none => ([], .ok none)
    | some a => ([], .ok (some (.str ((ctx.env a).getD []))))
  else if m.entity = chars "$time" then
    if args = [] then ([], .ok (some (.str ctx.timeStr)))
    else ([chars "Error at '" ++ m.text ++
      chars "': invalid argument for function"], .ok none)
  else if m.entity = chars "$unixtime" then
    if args = [] then ([], .ok (some (.str ctx.unixtimeStr)))
    else ([chars "Error at '" ++ m.text ++
      chars "': invalid argument for function"], .ok none)
  else if m.entity = chars "$isotime" then
    if args = [] then ([], .ok (some (.str ctx.isotimeStr)))
    else ([chars "Error at '" ++ m.text ++
      chars "': invalid argument for function"], .ok none)
  else ([], .ok none)

/-- `if val is not None: out = out.replace(m.group(), val, 1)`.
Replacing with the raw settings object (a non-string) raises
`TypeError`; calling `.replace` on a `None` output raises
`AttributeError`. -/
def substitute (out : Option Str) (text : Str) (val : Option RVal) :
    Except PyError (Option Str) :=
  match val with
  | none => .ok out
  | some (.str v) =>
      match out with
      | none => .error .attributeError
      | some o => .ok (some (replaceFirst o text v))
  | some .settingsObj =>
      match out with
      | none => .error .attributeError
      | some _ => .error .typeError

/-- `if regex: try: out = _extract_regex_group(regex, out) except
ValueError, e: spider.log(...)`.  Only `ValueError` is caught (logging
and leaving `out` as it was); any other exception propagates. -/
def applyRegex (eng : RegexEngine) (m : PMatch) (out : Option Str)
    (st : RunState) : RunState × Except PyError (Option Str) :=
  match m.regex with
  | none => (st, .ok out)
  | some rx =>
      if rx = [] then (st, .ok out)
      else
        match extractRegexGroup eng rx out st.cache with
        | (c', .ok o') => (⟨c', st.log⟩, .ok o')
        | (c', .error (.valueError e)) =>
            (⟨c', st.log ++ [chars "Error at '" ++ m.text ++
              chars "': " ++ e]⟩, .ok out)
        | (c', .error e) => (⟨c', st.log⟩, .error e)

/-- The body of `_format`'s loop for one scanner match. -/
def formatStep (eng : RegexEngine) (ctx : Ctx) (item : Item)
    (st : RunState) (out : Option Str) (m : PMatch) :
    RunState × Except PyError (Option Str) :=
  let (msgs, rv) := resolveVal ctx item m
  let st1 : RunState := ⟨st.cache, st.log ++ msgs⟩
  match rv with
  | .error e => (st1, .error e)
  | .ok val =>
      match substitute out m.text val with
      | .error e => (st1, .error e)
      | .ok out1 => applyRegex eng m out1 st1

/-- Fold `formatStep` over the scanner matches, stopping at the first
uncaught exception. -/
def formatMatches (eng : RegexEngine) (ctx : Ctx) (item : Item) :
    List PMatch → RunState → Option Str →
    RunState × Except PyError (Option Str)
  | [], st, out => (st, .ok out)
  | m :: ms, st, out =>
      match formatStep eng ctx item st out m with
      | (st', .ok out') => formatMatches eng ctx item ms st' out'
      | (st', .error e) => (st', .error e)

/-- Model of `_format(fmt, spider, response, item, fixed_values)`:
`out = fmt`, then the loop over `_ENTITIES_RE.finditer(fmt)`. -/
def format (eng : RegexEngine) (ctx : Ctx) (item : Item) (fmt : Str)
    (st : RunState) : RunState × Except PyError (Option Str) :=
  formatMatches eng ctx item (finditer fmt) st (some fmt)

/-! ## `MagicFieldsMiddleware` -/

/-- `item.setdefault(field, v)`: keep an existing binding, otherwise add
one. -/
def setdefault (item : Item) (field : Str) (v : Option Str) : Item :=
  match alookup item field with
  | some _ => item
  | none => item ++ [(field, v)]

/-- One iteration of the inner loop of `process_spider_output`:
`_res.setdefault(field, _format(fmt, spider, response, _res, ...))` —
the `_format` argument is evaluated first (with all its side effects),
then `setdefault` decides whether to store it. -/
def augmentField (eng : RegexEngine) (ctx : Ctx) (st : RunState)
    (item : Item) (field fmt : Str) : RunState × Except PyError Item :=
  match format eng ctx item fmt st with
  | (st', .ok v) => (st', .ok (setdefault item field v))
  | (st', .error e) => (st', .error e)

/-- The inner loop over `self.mfields.items()` for one item; an uncaught
exception aborts the remaining fields. -/
def processItem (eng : RegexEngine) (ctx : Ctx) :
    List (Str × Str) → RunState → Item → RunState × Except PyError Item
  | [], st, item => (st, .ok item)
  | (field, fmt) :: rest, st, item =>
      match augmentField eng ctx st item field fmt with
      | (st', .ok item') => processItem eng ctx rest st' item'
      | (st', .error e) => (st', .error e)

/-- Model of `process_spider_output` restricted to item results (non-item
results are passed through untouched by the `isinstance` guard and are
omitted here).  An uncaught exception kills the generator: items already
yielded are in the first list component of the error case. -/
def processSpiderOutput (eng : RegexEngine) (ctx : Ctx)
    (mfields : List (Str × Str)) :
    List Item → RunState → RunState × Except (List Item × PyError) (List Item)
  | [], st => (st, .ok [])
  | item :: rest, st =>
      match processItem eng ctx mfields st item with
      | (st', .ok item') =>
          match processSpiderOutput eng ctx mfields rest st' with
          | (st'', .ok items) => (st'', .ok (item' :: items))
          | (st'', .error (items, e)) => (st'', .error (item' :: items, e))
      | (st', .error e) => (st', .error ([], e))

/-- `dict.copy()` followed by `dict.update(o)`: keys of `b` keep their
position with `o`'s value when overridden; new keys of `o` are appended. -/
def dictUpdate (b o : List (Str × Str)) : List (Str × Str) :=
  b.map (fun kv => (kv.1, (alookup o kv.1).getD kv.2)) ++
    o.filter (fun kv => (alookup b kv.1).isNone)

/-- The constructed middleware: the merged field spec plus the fixed
values captured by `__init__` (the job-start timestamp and the settings
object). -/
structure Middleware where
  mfields : List (Str × Str)
  settings : List (Str × Str)
  jobtime : Str
deriving DecidableEq

/-- Model of `MagicFieldsMiddleware.from_crawler`: merge `MAGIC_FIELDS`
with `MAGIC_FIELDS_OVERRIDE` (override wins), raise `NotConfigured`
(modelled as `Except.error ()`) when the merge is empty, otherwise
construct the middleware. -/
def fromCrawler (magicFields magicFieldsOverride : List (Str × Str))
    (settings : List (Str × Str)) (jobtime : Str) :
    Except Unit Middleware :=
  let mfields := dictUpdate magicFields magicFieldsOverride
  if mfields = [] then .error ()
  else .ok ⟨mfields, settings, jobtime⟩

/-! ## Helper lemmas -/

theorem alookup_append_left {α : Type} (l l' : List (Str × α)) (k : Str)
    (v : α) (h : alookup l k = some v) : alookup (l ++ l') k = some v := by
  induction l with
  | nil => simp [alookup] at h
  | cons hd tl ih =>
      obtain ⟨k0, v0⟩ := hd
      rw [List.cons_append]
      simp only [alookup] at h ⊢
      by_cases hk : k0 = k
      · simpa [hk] using h
      · rw [if_neg hk] at h ⊢
        exact ih h

theorem alookup_append_right {α : Type} (l l' : List (Str × α)) (k : Str)
    (h : alookup l k = none) : alookup (l ++ l') k = alookup l' k := by
  induction l with
  | nil => simp
  | cons hd tl ih =>
      obtain ⟨k0, v0⟩ := hd
      rw [List.cons_append]
      simp only [alookup] at h ⊢
      by_cases hk : k0 = k
      · simp [hk] at h
      · rw [if_neg hk] at h ⊢
        exact ih h

theorem alookup_setdefault_preserve (item : Item) (f f' : Str)
    (v : Option Str) (w : Option Str) (h : alookup item f = some w) :
    alookup (setdefault item f' v) f = some w := by
  unfold setdefault
  cases hf : alookup item f' with
  | some _ => exact h
  | none => exact alookup_append_left _ _ _ _ h

theorem augmentField_ok_item (eng : RegexEngine) (ctx : Ctx) (st : RunState)
    (item : Item) (field fmt : Str) (st' : RunState) (item' : Item)
    (h : augmentField eng ctx st item field fmt = (st', .ok item')) :
    ∃ v, item' = setdefault item field v := by
  unfold augmentField at h
  rcases hf : format eng ctx item fmt st with ⟨st2, r⟩
  rw [hf] at h
  cases r with
  | ok v =>
      refine ⟨v, ?_⟩
      simp only [Prod.mk.injEq, Except.ok.injEq] at h
      exact h.2.symm
  | error e => simp at h

theorem alookup_map_update (b o : List (Str × Str)) (k : Str) (v : Str)
    (h : alookup b k = some v) :
    alookup (b.map fun kv => (kv.1, (alookup o kv.1).getD kv.2)) k =
      some ((alookup o k).getD v) := by
  induction b with
  | nil => simp [alookup] at h
  | cons hd tl ih =>
      obtain ⟨k0, v0⟩ := hd
      simp only [List.map_cons, alookup] at h ⊢
      by_cases hk : k0 = k
      · rw [if_pos hk] at h ⊢
        subst hk
        simp only [Option.some.injEq] at h
        rw [h]
      · rw [if_neg hk] at h ⊢
        exact ih h

theorem alookup_map_update_none (b o : List (Str × Str)) (k : Str)
    (h : alookup b k = none) :
    alookup (b.map fun kv => (kv.1, (alookup o kv.1).getD kv.2)) k = none := by
  induction b with
  | nil => rfl
  | cons hd tl ih =>
      obtain ⟨k0, v0⟩ := hd
      simp only [List.map_cons, alookup] at h ⊢
      by_cases hk : k0 = k
      · rw [if_pos hk] at h; exact absurd h (by simp)
      · rw [if_neg hk] at h ⊢
        exact ih h

theorem alookup_filter_keep (o b : List (Str × Str)) (k : Str)
    (h : alookup b k = none) :
    alookup (o.filter fun kv => (alookup b kv.1).isNone) k = alookup o k := by
  induction o with
  | nil => rfl
  | cons hd tl ih =>
      obtain ⟨k0, v0⟩ := hd
      by_cases hk : k0 = k
      · subst hk
        simp [List.filter, h, alookup]
      · cases hp : (alookup b k0).isNone with
        | true => simp only [List.filter, hp, alookup, if_neg hk]; exact ih
        | false => simp only [List.filter, hp, alookup, if_neg hk]; exact ih

/-- Characterization of the merge `MAGIC_FIELDS.copy(); .update(override)`:
the override's binding wins whenever both maps have the key. -/
theorem alookup_dictUpdate (b o : List (Str × Str)) (k : Str) :
    alookup (dictUpdate b o) k =
      match alookup b k with
      | some v => some ((alookup o k).getD v)
      | none => alookup o k := by
  unfold dictUpdate
  cases hb : alookup b k with
  | some v => exact alookup_append_left _ _ _ _ (alookup_map_update b o k v hb)
  | none =>
      rw [alookup_append_right _ _ _ (alookup_map_update_none b o k hb)]
      exact alookup_filter_keep o b k hb

/-! ## Shared concrete example inputs for witnesses -/

/-- A minimal concrete evaluation context: no spider or response
attributes, empty environment, empty settings. -/
def egCtx : Ctx :=
  ⟨fun _ => none, fun _ => none, fun _ => none, [], chars "JT",
   chars "T", chars "U", chars "I"⟩

/-- The fresh run state: empty caches, empty log. -/
def st0 : RunState := ⟨emptyCache, []⟩

/-! ## Claims -/

/-- C2: for every record and every configured destination field, if the
record already has a value for that field before augmentation, then after
a normally-returning augmentation the field holds exactly the same value:
`setdefault` never overwrites a pre-set field, so re-running augmentation
leaves fields that were already set unchanged. -/
theorem preset_field_never_overwritten
    (eng : RegexEngine) (ctx : Ctx) (mfields : List (Str × Str))
    (st st' : RunState) (item item' : Item) (f : Str) (v : Option Str)
    (hpre : alookup item f = some v)
    (hok : processItem eng ctx mfields st item = (st', .ok item')) :
    alookup item' f = some v := by
  induction mfields generalizing st item with
  | nil =>
      unfold processItem at hok
      simp only [Prod.mk.injEq, Except.ok.injEq] at hok
      rw [← hok.2]
      exact hpre
  | cons hd tl ih =>
      obtain ⟨field, fmt⟩ := hd
      unfold processItem at hok
      rcases ha : augmentField eng ctx st item field fmt with ⟨st2, r⟩
      rw [ha] at hok
      cases r with
      | ok item2 =>
          obtain ⟨w, hw⟩ := augmentField_ok_item _ _ _ _ _ _ _ _ ha
          exact ih st2 item2
            (by rw [hw]; exact alookup_setdefault_preserve _ _ _ _ _ hpre) hok
      | error e => simp at hok

/-- Witness for C2 at a concrete input: a record with `f` already set,
processed under the config `{"f": "$jobid"}`, keeps its original value. -/
theorem preset_field_never_overwritten_witness :
    alookup [(chars "f", some (chars "old"))] (chars "f")
        = some (some (chars "old")) ∧
    alookup [(chars "f", some (chars "old"))] (chars "f")
        = some (some (chars "old")) :=
  ⟨rfl, preset_field_never_overwritten pyEngine egCtx
    [(chars "f", chars "$jobid")] st0 st0
    [(chars "f", some (chars "old"))] [(chars "f", some (chars "old"))]
    (chars "f") (some (chars "old")) rfl rfl⟩

/-- C9 (implicit): the format string of a configured field is fully
evaluated — all `spider.log` side effects and cache updates happen — even
when the item already has that field; only the assignment is conditional,
because the `_format(...)` argument of `setdefault` is computed before
the presence check. -/
theorem format_evaluated_even_when_field_preset
    (eng : RegexEngine) (ctx : Ctx) (st : RunState) (item : Item)
    (f fmt : Str) (v : Option Str) (hpre : alookup item f = some v) :
    augmentField eng ctx st item f fmt =
      ((format eng ctx item fmt st).1,
       (format eng ctx item fmt st).2.map fun _ => item) := by
  unfold augmentField
  rcases hf : format eng ctx item fmt st with ⟨st2, r⟩
  cases r with
  | ok w => simp [setdefault, hpre, Except.map]
  | error e => simp [Except.map]

/-- Witness for C9: the field `f` is pre-set, yet processing its format
string `$spider:name` (the spider has no attributes) emits the warning
into the log while the item is returned unchanged. -/
theorem format_evaluated_even_when_field_preset_witness :
    alookup [(chars "f", some (chars "old"))] (chars "f")
        = some (some (chars "old")) ∧
    augmentField pyEngine egCtx st0 [(chars "f", some (chars "old"))]
        (chars "f") (chars "$spider:name") =
      ((format pyEngine egCtx [(chars "f", some (chars "old"))]
          (chars "$spider:name") st0).1,
       (format pyEngine egCtx [(chars "f", some (chars "old"))]
          (chars "$spider:name") st0).2.map
         fun _ => [(chars "f", some (chars "old"))]) ∧
    (format pyEngine egCtx [(chars "f", some (chars "old"))]
        (chars "$spider:name") st0).1.log =
      [chars "Error at '$spider:name': spider does not have attribute"] :=
  ⟨rfl,
   format_evaluated_even_when_field_preset pyEngine egCtx st0
     [(chars "f", some (chars "old"))] (chars "f")
     (chars "$spider:name") (some (chars "old")) rfl,
   rfl⟩

/-- C10 (implicit): `from_crawler` raises `NotConfigured` exactly when
the merge of `MAGIC_FIELDS` with `MAGIC_FIELDS_OVERRIDE` (override wins
on key collisions) is empty — equivalently, when both mappings are
empty; otherwise construction succeeds and the merged mapping is the
middleware's field spec. -/
theorem from_crawler_not_configured_iff_empty_merge
    (b o s : List (Str × Str)) (jt : Str) :
    (fromCrawler b o s jt = .error () ↔ dictUpdate b o = []) ∧
    (dictUpdate b o = [] ↔ b = [] ∧ o = []) ∧
    ∀ mw, fromCrawler b o s jt = .ok mw →
      mw.mfields = dictUpdate b o ∧
      ∀ k, alookup mw.mfields k =
        match alookup b k with
        | some v => some ((alookup o k).getD v)
        | none => alookup o k := by
  refine ⟨?_, ?_, ?_⟩
  · unfold fromCrawler
    by_cases h : dictUpdate b o = [] <;> simp [h]
  · constructor
    · intro h
      cases b with
      | nil =>
          refine ⟨rfl, ?_⟩
          unfold dictUpdate at h
          simpa [alookup, List.filter_eq_self] using h
      | cons hd tl => simp [dictUpdate] at h
    · rintro ⟨rfl, rfl⟩; rfl
  · intro mw hmw
    unfold fromCrawler at hmw
    by_cases h : dictUpdate b o = []
    · simp [h] at hmw
    · rw [if_neg h] at hmw
      simp only [Except.ok.injEq] at hmw
      subst hmw
      exact ⟨rfl, fun k => alookup_dictUpdate b o k⟩

/-- Witness for C10: both directions at concrete inputs — empty maps
give `NotConfigured`, and a key collision is decided by the override. -/
theorem from_crawler_not_configured_iff_empty_merge_witness :
    fromCrawler [] [] [] [] = .error () ∧
    alookup (dictUpdate [(chars "a", chars "$time")]
        [(chars "a", chars "$jobid")]) (chars "a")
      = some (chars "$jobid") := by
  constructor
  · exact (from_crawler_not_configured_iff_empty_merge [] [] [] []).1.mpr rfl
  · have h := ((from_crawler_not_configured_iff_empty_merge
      [(chars "a", chars "$time")] [(chars "a", chars "$jobid")] []
      []).2.2 ⟨dictUpdate [(chars "a", chars "$time")]
        [(chars "a", chars "$jobid")], [], []⟩ rfl).2 (chars "a")
    exact h.trans (by decide)

/-- C8: for every environment state, `$jobid` resolves to exactly the
same string as `$env:SCRAPY_JOB` — the value of that environment
variable, or the empty string when it is unset — and `$env:SOME_VAR`
with `SOME_VAR` unset resolves to the empty string. -/
theorem jobid_equiv_env_scrapy_job (eng : RegexEngine) (ctx : Ctx)
    (item : Item) (st : RunState) :
    format eng ctx item (chars "$jobid") st =
      format eng ctx item (chars "$env:SCRAPY_JOB") st ∧
    format eng ctx item (chars "$jobid") st =
      (st, .ok (some ((ctx.env (chars "SCRAPY_JOB")).getD []))) ∧
    (ctx.env (chars "SOME_VAR") = none →
      format eng ctx item (chars "$env:SOME_VAR") st = (st, .ok (some []))) := by
  refine ⟨rfl, ?_, ?_⟩
  · have h0 : format eng ctx item (chars "$jobid") st =
        (⟨st.cache, st.log ++ []⟩,
         .ok (some ((ctx.env (chars "SCRAPY_JOB")).getD [] ++ []))) := rfl
    rw [h0]
    simp
  · intro h
    have h0 : format eng ctx item (chars "$env:SOME_VAR") st =
        (⟨st.cache, st.log ++ []⟩,
         .ok (some ((ctx.env (chars "SOME_VAR")).getD [] ++ []))) := rfl
    rw [h0, h]
    simp

/-- Witness for C8: the unset-variable clause at a concrete context. -/
theorem jobid_equiv_env_scrapy_job_witness :
    egCtx.env (chars "SOME_VAR") = none ∧
    format pyEngine egCtx [] (chars "$env:SOME_VAR") st0 =
      (st0, .ok (some [])) :=
  ⟨rfl, (jobid_equiv_env_scrapy_job pyEngine egCtx [] st0).2.2 rfl⟩

/-! ### Evaluation lemmas for `_extract_regex_group` -/

/-- First request for a pattern, successful compilation: the compiled
pattern is stored and the search runs. -/
theorem extract_fresh_ok (eng : RegexEngine) (p : Str) (t : Option Str)
    (c : Cache) (cp : RE)
    (hfr : alookup c.regexes p = none) (hfe : alookup c.regexErrors p = none)
    (hc : eng.compile p = .ok cp) :
    extractRegexGroup eng p t c =
      (⟨c.regexes ++ [(p, cp)], c.regexErrors⟩,
       match t with
       | none => .error .typeError
       | some txt =>
           match eng.search cp txt with
           | none => .ok none
           | some gs =>
               if gs.all (fun g => g.isSome) then
                 (if gs.foldr (fun g acc => g.getD [] ++ acc) [] = [] then
                    .ok none
                  else .ok (some (gs.foldr (fun g acc => g.getD [] ++ acc) [])))
               else .error .typeError) := by
  unfold extractRegexGroup
  rw [hfr, hfe, hc]
  cases t with
  | none => simp
  | some txt =>
      cases hs : eng.search cp txt with
      | none => simp [hs]
      | some gs =>
          by_cases hall : gs.all (fun g => g.isSome) <;>
            · simp [hs, hall]
              try (split <;> rfl)

/-- First request for a pattern, failed compilation: the error message is
stored and re-raised (as `AttributeError` for a falsy empty message). -/
theorem extract_fresh_err (eng : RegexEngine) (p : Str) (t : Option Str)
    (c : Cache) (e : Str)
    (hfr : alookup c.regexes p = none) (hfe : alookup c.regexErrors p = none)
    (hc : eng.compile p = .error e) :
    extractRegexGroup eng p t c =
      (⟨c.regexes, c.regexErrors ++ [(p, e)]⟩,
       if e = [] then .error .attributeError
       else .error (.valueError e)) := by
  unfold extractRegexGroup
  rw [hfr, hfe, hc]
  by_cases he : e = [] <;> simp [he]

/-- Request with a compiled pattern already stored and no stored error:
the cache is untouched and only the search runs. -/
theorem extract_cached_ok (eng : RegexEngine) (p : Str) (t : Option Str)
    (c : Cache) (cp : RE)
    (hok : alookup c.regexes p = some cp)
    (hne : alookup c.regexErrors p = none) :
    extractRegexGroup eng p t c =
      (c,
       match t with
       | none => .error .typeError
       | some txt =>
           match eng.search cp txt with
           | none => .ok none
           | some gs =>
               if gs.all (fun g => g.isSome) then
                 (if gs.foldr (fun g acc => g.getD [] ++ acc) [] = [] then
                    .ok none
                  else .ok (some (gs.foldr (fun g acc => g.getD [] ++ acc) [])))
               else .error .typeError) := by
  unfold extractRegexGroup
  rw [hok, hne]
  cases t with
  | none => simp
  | some txt =>
      cases hs : eng.search cp txt with
      | none => simp [hs]
      | some gs =>
          by_cases hall : gs.all (fun g => g.isSome) <;>
            · simp [hs, hall]
              try (split <;> rfl)

/-- Request with a (truthy) error message already stored: the cache is
untouched and the identical `ValueError` is raised again, for any text
and any engine. -/
theorem extract_cached_err (eng : RegexEngine) (p : Str) (t : Option Str)
    (c : Cache) (e : Str)
    (he : alookup c.regexErrors p = some e) (hne : e ≠ []) :
    extractRegexGroup eng p t c = (c, .error (.valueError e)) := by
  unfold extractRegexGroup
  rw [he]
  simp [hne]

/-- C3: for every regex pattern text (over any engine), compilation is
attempted at most once: the first extraction request stores either the
compiled pattern or the compiler's error message (never both, never
neither once requested); a second request leaves the cache unchanged,
in the failure case raises a `ValueError` carrying the identical
message, and its outcome does not consult the compiler at all (any
engine with the same search function gives the same result). -/
theorem regex_compiled_at_most_once
    (eng : RegexEngine) (p : Str) (t1 t2 : Option Str) (c c1 : Cache)
    (r1 : Except PyError (Option Str))
    (hfr : alookup c.regexes p = none)
    (hfe : alookup c.regexErrors p = none)
    (hrun : extractRegexGroup eng p t1 c = (c1, r1)) :
    ((alookup c1.regexes p).isSome ↔ ¬ (alookup c1.regexErrors p).isSome) ∧
    (∀ cp, eng.compile p = .ok cp → alookup c1.regexes p = some cp) ∧
    (∀ e, eng.compile p = .error e → alookup c1.regexErrors p = some e) ∧
    ((extractRegexGroup eng p t2 c1).1 = c1) ∧
    (∀ e, eng.compile p = .error e → e ≠ [] →
        r1 = .error (.valueError e) ∧
        extractRegexGroup eng p t2 c1 = (c1, .error (.valueError e))) ∧
    (∀ eng' : RegexEngine, eng'.search = eng.search →
        extractRegexGroup eng' p t2 c1 = extractRegexGroup eng p t2 c1) := by
  cases hc : eng.compile p with
  | ok cp =>
      rw [extract_fresh_ok eng p t1 c cp hfr hfe hc] at hrun
      have hc1 : c1 = ⟨c.regexes ++ [(p, cp)], c.regexErrors⟩ :=
        (Prod.mk.injEq .. ▸ hrun).1.symm
      have hok1 : alookup c1.regexes p = some cp := by
        rw [hc1]
        show alookup (c.regexes ++ [(p, cp)]) p = some cp
        rw [alookup_append_right _ _ _ hfr]
        simp [alookup]
      have hne1 : alookup c1.regexErrors p = none := by rw [hc1]; exact hfe
      refine ⟨by simp [hok1, hne1], ?_, ?_, ?_, ?_, ?_⟩
      · intro cp' h'
        cases h'
        exact hok1
      · intro e h'
        cases h'
      · rw [extract_cached_ok eng p t2 c1 cp hok1 hne1]
      · intro e h'
        cases h'
      · intro eng' hs
        rw [extract_cached_ok eng p t2 c1 cp hok1 hne1,
            extract_cached_ok eng' p t2 c1 cp hok1 hne1, hs]
  | error e =>
      rw [extract_fresh_err eng p t1 c e hfr hfe hc] at hrun
      have hc1 : c1 = ⟨c.regexes, c.regexErrors ++ [(p, e)]⟩ :=
        (Prod.mk.injEq .. ▸ hrun).1.symm
      have hok1 : alookup c1.regexes p = none := by rw [hc1]; exact hfr
      have herr1 : alookup c1.regexErrors p = some e := by
        rw [hc1]
        show alookup (c.regexErrors ++ [(p, e)]) p = some e
        rw [alookup_append_right _ _ _ hfe]
        simp [alookup]
      have hr1 : r1 = if e = [] then .error .attributeError
          else .error (.valueError e) :=
        ((Prod.mk.injEq .. ▸ hrun).2).symm
      refine ⟨by simp [hok1, herr1], ?_, ?_, ?_, ?_, ?_⟩
      · intro cp' h'
        cases h'
      · intro e' h'
        cases h'
        exact herr1
      · by_cases he : e = []
        · subst he
          unfold extractRegexGroup
          rw [herr1, hok1]
          simp
        · rw [extract_cached_err eng p t2 c1 e herr1 he]
      · intro e' h' hne
        cases h'
        refine ⟨by rw [hr1, if_neg hne], ?_⟩
        exact extract_cached_err eng p t2 c1 e herr1 hne
      · intro eng' hs
        by_cases he : e = []
        · subst he
          unfold extractRegexGroup
          rw [herr1, hok1]
          simp
        · rw [extract_cached_err eng p t2 c1 e herr1 he,
              extract_cached_err eng' p t2 c1 e herr1 he]

/-- Witness for C3 at a concrete input: the pattern `"("` fails to
compile under the concrete engine, the failure is memoized on first use
from the empty cache, and the stated consequences hold. -/
theorem regex_compiled_at_most_once_witness :
    alookup emptyCache.regexes (chars "(") = none ∧
    alookup emptyCache.regexErrors (chars "(") = none ∧
    ((alookup (⟨[], [(chars "(", chars "unbalanced parenthesis")]⟩ :
        Cache).regexes (chars "(")).isSome ↔
      ¬ (alookup (⟨[], [(chars "(", chars "unbalanced parenthesis")]⟩ :
        Cache).regexErrors (chars "(")).isSome) ∧
    (∀ e, pyEngine.compile (chars "(") = .error e →
      alookup (⟨[], [(chars "(", chars "unbalanced parenthesis")]⟩ :
        Cache).regexErrors (chars "(") = some e) ∧
    (∀ e, pyEngine.compile (chars "(") = .error e → e ≠ [] →
      extractRegexGroup pyEngine (chars "(") (some (chars "x"))
          ⟨[], [(chars "(", chars "unbalanced parenthesis")]⟩ =
        (⟨[], [(chars "(", chars "unbalanced parenthesis")]⟩,
         .error (.valueError e))) := by
  have h := regex_compiled_at_most_once pyEngine (chars "(")
    (some (chars "x")) (some (chars "x")) emptyCache
    ⟨[], [(chars "(", chars "unbalanced parenthesis")]⟩
    (.error (.valueError (chars "unbalanced parenthesis")))
    rfl rfl rfl
  exact ⟨rfl, rfl, h.1, h.2.2.1, fun e he hne => (h.2.2.2.2.1 e he hne).2⟩

/-- C7 counterexample: for the compilable pattern `(a)|(b)` and text
`"b"`, the leftmost match has a group that did not participate (group 1);
the claim says it "contributes nothing" to the concatenation, i.e. the
result would be `"b"`, but `"".join(m.groups())` over a tuple containing
`None` raises `TypeError`, so extraction raises instead of returning the
concatenation. -/
theorem extract_nonparticipating_group_counterexample :
    pyEngine.search
        ((pyEngine.compile (chars "(a)|(b)")).toOption.getD .eps) (chars "b")
      = some [none, some (chars "b")] ∧
    (extractRegexGroup pyEngine (chars "(a)|(b)") (some (chars "b"))
        emptyCache).2 = .error .typeError ∧
    (extractRegexGroup pyEngine (chars "(a)|(b)") (some (chars "b"))
        emptyCache).2 ≠ .ok (some (chars "b")) := by
  refine ⟨rfl, rfl, ?_⟩
  decide

/-- C7 (amended): for every compilable pattern and every text, extraction
returns the "no value" sentinel when the search finds no match; when the
search matches and every group participated, it returns the concatenation
of the captured groups — with the "no value" sentinel in place of an
empty concatenation; but a group that did not participate makes the
join raise `TypeError` (which the formatter does not catch), rather than
contributing nothing. -/
theorem extract_groups_concat_characterization
    (eng : RegexEngine) (p t : Str) (c : Cache) (cp : RE)
    (hfr : alookup c.regexes p = none) (hfe : alookup c.regexErrors p = none)
    (hc : eng.compile p = .ok cp) :
    (eng.search cp t = none →
      (extractRegexGroup eng p (some t) c).2 = .ok none) ∧
    (∀ gs, eng.search cp t = some gs →
      ((∀ g ∈ gs, g.isSome) →
        (extractRegexGroup eng p (some t) c).2 =
          (if gs.foldr (fun g acc => g.getD [] ++ acc) [] = [] then .ok none
           else .ok (some (gs.foldr (fun g acc => g.getD [] ++ acc) [])))) ∧
      ((∃ g ∈ gs, g = none) →
        (extractRegexGroup eng p (some t) c).2 = .error .typeError)) := by
  rw [extract_fresh_ok eng p (some t) c cp hfr hfe hc]
  refine ⟨?_, ?_⟩
  · intro hs
    simp [hs]
  · intro gs hs
    constructor
    · intro hall
      have ha : gs.all (fun g => g.isSome) = true := by
        rw [List.all_eq_true]
        intro g hg
        exact hall g hg
      simp only [hs, ha, if_true]
    · rintro ⟨g, hg, rfl⟩
      have ha : gs.all (fun g => g.isSome) = false := by
        rw [List.all_eq_false]
        exact ⟨none, hg, by simp⟩
      simp [hs, ha]

/-- Witness for the amended C7 at a concrete input: pattern `(b)` on text
`"ab"` — one group, it participates, the concatenation `"b"` is returned;
the hypotheses are discharged by evaluation. -/
theorem extract_groups_concat_characterization_witness :
    pyCompile (chars "(b)")
        = .ok (RE.seqr .eps (.group 1 (.seqr .eps (.lit 'b')))) ∧
    (extractRegexGroup pyEngine (chars "(b)") (some (chars "ab"))
        emptyCache).2 = .ok (some (chars "b")) := by
  refine ⟨rfl, ?_⟩
  have h := ((extract_groups_concat_characterization pyEngine (chars "(b)")
    (chars "ab") emptyCache (RE.seqr .eps (.group 1 (.seqr .eps (.lit 'b'))))
    rfl rfl rfl).2 [some (chars "b")] rfl).1 (by decide)
  exact h.trans (by decide)

/-- C4 counterexample: the malformed pattern `(`, used by the config
`{"x": "$field:u,r'('"}` across two different records, triggers TWO
compilation-error log events with the identical message — not exactly
one per distinct pattern text as claimed.  (The cache does memoize the
failure — the error map holds one entry — but the memoized `ValueError`
is re-raised and re-logged on every use.)  The full run also shows each
record's output left unmodified by the failing extraction step. -/
theorem bad_regex_logged_twice_counterexample :
    processSpiderOutput pyEngine egCtx [(chars "x", chars "$field:u,r'('")]
        [[(chars "u", some (chars "a"))], [(chars "u", some (chars "b"))]]
        st0 =
      (⟨⟨[], [(chars "(", chars "unbalanced parenthesis")]⟩,
        [chars "Error at '$field:u,r'('': unbalanced parenthesis",
         chars "Error at '$field:u,r'('': unbalanced parenthesis"]⟩,
       .ok [[(chars "u", some (chars "a")), (chars "x", some (chars "a"))],
            [(chars "u", some (chars "b")), (chars "x", some (chars "b"))]]) ∧
    ¬ (processSpiderOutput pyEngine egCtx
        [(chars "x", chars "$field:u,r'('")]
        [[(chars "u", some (chars "a"))], [(chars "u", some (chars "b"))]]
        st0).1.log.length = 1 := by
  refine ⟨rfl, ?_⟩
  decide

/-- C4 (amended): a malformed trailing regex is logged once per USE, not
once per distinct pattern text: the first use compiles, memoizes the
error message and appends one log event; every later use — under any
engine, i.e. without re-attempting compilation — appends one more log
event with the identical message; and every such failing extraction
leaves the current output and the rest of the state unmodified. -/
theorem bad_regex_logged_once_per_use
    (eng : RegexEngine) (m : PMatch) (p e : Str) (out : Option Str)
    (st : RunState)
    (hm : m.regex = some p) (hp : p ≠ [])
    (he : eng.compile p = .error e) (hne : e ≠ [])
    (hfr : alookup st.cache.regexes p = none)
    (hfe : alookup st.cache.regexErrors p = none) :
    applyRegex eng m out st =
      (⟨⟨st.cache.regexes, st.cache.regexErrors ++ [(p, e)]⟩,
        st.log ++ [chars "Error at '" ++ m.text ++ chars "': " ++ e]⟩,
       .ok out) ∧
    ∀ (st' : RunState) (out' : Option Str),
      alookup st'.cache.regexErrors p = some e →
      ∀ eng' : RegexEngine,
        applyRegex eng' m out' st' =
          (⟨st'.cache,
            st'.log ++ [chars "Error at '" ++ m.text ++ chars "': " ++ e]⟩,
           .ok out') := by
  constructor
  · simp only [applyRegex, hm]
    rw [if_neg hp, extract_fresh_err eng p out st.cache e hfr hfe he,
       if_neg hne]
  · intro st' out' hcached eng'
    simp only [applyRegex, hm]
    rw [if_neg hp, extract_cached_err eng' p out' st'.cache e hcached hne]

/-- Witness for the amended C4 at a concrete input: the scanner match of
`$field:u,r'('` with its malformed pattern `(`, applied from the fresh
state and then again from the state produced by the first use. -/
theorem bad_regex_logged_once_per_use_witness :
    (⟨chars "$field:u,r'('", chars "$field", some (chars ":u"),
        some (chars "(")⟩ : PMatch).regex = some (chars "(") ∧
    pyEngine.compile (chars "(")
        = .error (chars "unbalanced parenthesis") ∧
    applyRegex pyEngine
        ⟨chars "$field:u,r'('", chars "$field", some (chars ":u"),
          some (chars "(")⟩ (some (chars "a")) st0 =
      (⟨⟨[], [(chars "(", chars "unbalanced parenthesis")]⟩,
        [chars "Error at '$field:u,r'('': unbalanced parenthesis"]⟩,
       .ok (some (chars "a"))) := by
  refine ⟨rfl, rfl, ?_⟩
  have h := (bad_regex_logged_once_per_use pyEngine
    ⟨chars "$field:u,r'('", chars "$field", some (chars ":u"),
      some (chars "(")⟩ (chars "(") (chars "unbalanced parenthesis")
    (some (chars "a")) st0 rfl (by decide) rfl (by decide) rfl rfl).1
  exact h.trans (by decide)

/-! ### Scanner decomposition lemmas -/

theorem lastQuoteSplit_decomp (l : Str) :
    ∀ content rest, lastQuoteSplit l = some (content, rest) →
      l = content ++ '\'' :: rest := by
  induction l with
  | nil => intro content rest h; simp [lastQuoteSplit] at h
  | cons c t ih =>
      intro content rest h
      simp only [lastQuoteSplit] at h
      by_cases hn : c = '\n'
      · simp [hn] at h
      · rw [if_neg hn] at h
        cases hq : lastQuoteSplit t with
        | some p =>
            obtain ⟨ct, rt⟩ := p
            rw [hq] at h
            simp only [Option.some.injEq, Prod.mk.injEq] at h
            obtain ⟨h1, h2⟩ := h
            rw [← h1, ← h2, List.cons_append]
            exact congrArg (c :: ·) (ih ct rt hq)
        | none =>
            rw [hq] at h
            by_cases hc : c = '\''
            · rw [if_pos hc] at h
              simp only [Option.some.injEq, Prod.mk.injEq] at h
              obtain ⟨h1, h2⟩ := h
              rw [← h1, ← h2]
              simp [hc]
            · simp [hc] at h

theorem argsSplit_decomp (r1 : Str) :
    r1 = (argsSplit r1).1.getD [] ++ (argsSplit r1).2 := by
  cases r1 with
  | nil => rfl
  | cons c t =>
      simp only [argsSplit]
      by_cases hc : c = ':'
      · rw [if_pos hc]
        by_cases hw : t.takeWhile isWordCh = []
        · simp [hw]
        · simp only [if_neg hw]
          rw [hc]
          show (':' :: t : Str) = (':' :: t.takeWhile isWordCh) ++
            t.dropWhile isWordCh
          rw [List.cons_append, List.takeWhile_append_dropWhile]
      · rw [if_neg hc]
        rfl

theorem regexSplit_decomp (r2 : Str) :
    r2 = regexText (regexSplit r2).1 ++ (regexSplit r2).2 := by
  match r2 with
  | [] => rfl
  | [c] => rfl
  | [c, d] => rfl
  | c :: d :: e :: t =>
      simp only [regexSplit]
      by_cases h : c = ',' ∧ d = 'r' ∧ e = '\''
      · rw [if_pos h]
        obtain ⟨rfl, rfl, rfl⟩ := h
        cases hq : lastQuoteSplit t with
        | some p =>
            obtain ⟨content, rest⟩ := p
            by_cases hcon : content = []
            · simp [hcon, regexText]
            · simp only [if_neg hcon, regexText]
              have := lastQuoteSplit_decomp t content rest hq
              simp only [List.cons_append]
              rw [this]
              simp
        | none => simp [regexText]
      · rw [if_neg h]
        rfl

theorem matchAt_decomp (s : Str) (m : PMatch) (r : Str)
    (h : matchAt s = some (m, r)) : s = m.text ++ r ∧ m.text ≠ [] := by
  cases s with
  | nil => simp [matchAt] at h
  | cons c rest =>
      simp only [matchAt] at h
      by_cases hc : c = '$'
      case neg => simp [hc] at h
      rw [if_pos hc] at h
      by_cases hl : rest.takeWhile isLowerAZ = []
      · simp [hl] at h
      · simp only [if_neg hl] at h
        simp only [Option.some.injEq, Prod.mk.injEq] at h
        obtain ⟨hm, hr⟩ := h
        have h1 : rest = rest.takeWhile isLowerAZ ++
            rest.dropWhile isLowerAZ :=
          (List.takeWhile_append_dropWhile ..).symm
        have h2 := argsSplit_decomp (rest.dropWhile isLowerAZ)
        have h3 := regexSplit_decomp
          (argsSplit (rest.dropWhile isLowerAZ)).2
        have key : rest = rest.takeWhile isLowerAZ ++
            ((argsSplit (rest.dropWhile isLowerAZ)).1.getD [] ++
              (regexText (regexSplit
                  (argsSplit (rest.dropWhile isLowerAZ)).2).1 ++
                (regexSplit (argsSplit (rest.dropWhile isLowerAZ)).2).2)) :=
          h1.trans ((congrArg
              (fun x => rest.takeWhile isLowerAZ ++ x) h2).trans
            (congrArg (fun x => rest.takeWhile isLowerAZ ++
              ((argsSplit (rest.dropWhile isLowerAZ)).1.getD [] ++ x)) h3))
        constructor
        · rw [← hm, ← hr, hc]
          conv_lhs => rw [key]
          simp [List.append_assoc]
        · rw [← hm]
          simp

/-- The scanner's matches decompose the input left to right: each match
text occurs in the input after the previous match, disjointly and in
scan order. -/
def scansTo : Str → List PMatch → Prop
  | _, [] => True
  | s, m :: ms => ∃ pre rest, s = pre ++ m.text ++ rest ∧ scansTo rest ms

theorem scansTo_cons (c : Char) (t : Str) (l : List PMatch)
    (h : scansTo t l) : scansTo (c :: t) l := by
  cases l with
  | nil => trivial
  | cons m ms =>
      obtain ⟨pre, rest, h1, h2⟩ := h
      exact ⟨c :: pre, rest, by rw [h1]; rfl, h2⟩

theorem finditerAux_scansTo (fuel : Nat) :
    ∀ s : Str, s.length ≤ fuel → scansTo s (finditerAux fuel s) := by
  induction fuel with
  | zero =>
      intro s hs
      have : s = [] := List.length_eq_zero.mp (Nat.le_zero.mp hs)
      subst this
      trivial
  | succ fuel ih =>
      intro s hs
      cases s with
      | nil => trivial
      | cons c t =>
          unfold finditerAux
          cases hma : matchAt (c :: t) with
          | none =>
              exact scansTo_cons c t _ (ih t (Nat.le_of_succ_le_succ hs))
          | some p =>
              obtain ⟨m, r⟩ := p
              obtain ⟨hdec, hne⟩ := matchAt_decomp (c :: t) m r hma
              have hlen : r.length ≤ fuel := by
                have : (c :: t).length = m.text.length + r.length := by
                  rw [hdec, List.length_append]
                have hpos : 1 ≤ m.text.length :=
                  Nat.succ_le_of_lt (List.length_pos.mpr hne)
                omega
              exact ⟨[], r, by simpa using hdec, ih r hlen⟩

/-- All of `finditer`'s matches occur in the input disjointly, in
left-to-right scan order. -/
theorem finditer_scansTo (s : Str) : scansTo s (finditer s) :=
  finditerAux_scansTo s.length s (Nat.le_refl _)

/-! ### First-occurrence replacement -/

theorem startsWith_iff (pat s : Str) :
    startsWith pat s = true ↔ ∃ post, s = pat ++ post := by
  induction pat generalizing s with
  | nil => simp [startsWith]
  | cons p ps ih =>
      cases s with
      | nil =>
          simp only [startsWith, Bool.false_eq_true, false_iff]
          rintro ⟨post, h⟩
          simp at h
      | cons c cs =>
          simp only [startsWith, Bool.and_eq_true, decide_eq_true_eq]
          constructor
          · rintro ⟨rfl, h⟩
            obtain ⟨post, rfl⟩ := (ih cs).mp h
            exact ⟨post, rfl⟩
          · rintro ⟨post, h⟩
            injection h with h1 h2
            exact ⟨h1.symm ▸ rfl, (ih cs).mpr ⟨post, h2⟩⟩

/-- `replaceFirst` replaces exactly the leftmost occurrence: when `pat`
occurs in `s`, there is a decomposition at the least position, and the
result splices `val` there. -/
theorem replaceFirst_spec (s : Str) : ∀ pat val : Str,
    (∃ pre post, s = pre ++ pat ++ post) →
    ∃ pre post, s = pre ++ pat ++ post ∧
      replaceFirst s pat val = pre ++ val ++ post ∧
      ∀ pre' post' : Str, s = pre' ++ pat ++ post' →
        pre.length ≤ pre'.length := by
  induction s with
  | nil =>
      intro pat val ⟨pre, post, hocc⟩
      have hp : pre = [] ∧ pat = [] ∧ post = [] := by
        have := congrArg List.length hocc
        simp at this
        exact ⟨List.length_eq_zero.mp (by omega),
          List.length_eq_zero.mp (by omega),
          List.length_eq_zero.mp (by omega)⟩
      obtain ⟨rfl, rfl, rfl⟩ := hp
      exact ⟨[], [], rfl, by simp [replaceFirst, startsWith], fun _ _ _ => by
        simp⟩
  | cons c t ih =>
      intro pat val ⟨pre, post, hocc⟩
      by_cases hsw : startsWith pat (c :: t) = true
      · obtain ⟨post₀, hdec⟩ := (startsWith_iff pat (c :: t)).mp hsw
        refine ⟨[], post₀, by simpa using hdec, ?_, fun _ _ _ => by simp⟩
        show replaceFirst (c :: t) pat val = val ++ post₀
        unfold replaceFirst
        cases pat with
        | nil =>
            simp only [startsWith]
            simp only [List.nil_append] at hdec
            simp [if_pos rfl, ← hdec]
        | cons p ps =>
            rw [if_pos hsw, hdec]
            simp
      · have hpre : pre ≠ [] := by
          rintro rfl
          exact hsw ((startsWith_iff pat (c :: t)).mpr ⟨post, by simpa using
            hocc⟩)
        obtain ⟨c', pre₂, rfl⟩ := List.exists_cons_of_ne_nil hpre
        rw [List.cons_append, List.cons_append] at hocc
        injection hocc with hc1 ht
        subst hc1
        obtain ⟨preT, postT, h1, h2, hmin⟩ := ih pat val ⟨pre₂, post, ht⟩
        refine ⟨c :: preT, postT, ?_, ?_, ?_⟩
        · rw [List.cons_append, List.cons_append, ← h1]
        · show replaceFirst (c :: t) pat val = (c :: preT) ++ val ++ postT
          unfold replaceFirst
          rw [if_neg hsw, h2]
          rfl
        · intro pre' post' hs'
          have hpre' : pre' ≠ [] := by
            rintro rfl
            exact hsw ((startsWith_iff pat (c :: t)).mpr
              ⟨post', by simpa using hs'⟩)
          obtain ⟨c'', pre₃, rfl⟩ := List.exists_cons_of_ne_nil hpre'
          rw [List.cons_append, List.cons_append] at hs'
          injection hs' with hc2 ht'
          simpa using Nat.succ_le_succ (hmin pre₃ post' ht')

/-- C5 counterexample: in the format string `$field:a,r'($env:b'$env:b`
the scanner finds two matches, `$field:a,r'($env:b'` and a trailing
`$env:b`.  The first leaves the output unchanged (field `a` absent;
regex `($env:b` fails to compile and is only logged).  When the second
resolves (to `""`, the unset-variable default), `out.replace` removes
the FIRST literal occurrence of `$env:b` — the one inside the first
match's regex literal, which the scanner never produced as a match —
leaving the scanned occurrence at the end untouched.  This contradicts
the claim that a literal substring identical to a placeholder's raw text
but not produced by the scanner is never touched (which would give
`$field:a,r'($env:b'` as the result). -/
theorem nonscanner_occurrence_touched_counterexample :
    format pyEngine egCtx [] (chars "$field:a,r'($env:b'$env:b") st0 =
      (⟨⟨[], [(chars "($env:b", chars "unbalanced parenthesis")]⟩,
        [chars "Error at '$field:a,r'($env:b'': unbalanced parenthesis"]⟩,
       .ok (some (chars "$field:a,r'('$env:b"))) ∧
    (format pyEngine egCtx [] (chars "$field:a,r'($env:b'$env:b") st0).2
      ≠ .ok (some (chars "$field:a,r'($env:b'")) := by
  refine ⟨rfl, ?_⟩
  decide

/-- C5 (amended): placeholders are resolved strictly left-to-right in
scanner order — the scanner's matches occur disjointly in the input in
that order; each resolved placeholder replaces the first remaining
literal occurrence of its matched text in the current partially
substituted output (`replaceFirst` splices at the least position); an
unresolved placeholder leaves the output unchanged.  However, that first
literal occurrence need not be the one the scanner produced: text
identical to the match inside an earlier match's regex literal is
replaced instead (the "never touched" clause of the original claim is
dropped). -/
theorem leftmost_scan_and_first_occurrence_replacement :
    (∀ s : Str, scansTo s (finditer s)) ∧
    (∀ out text : Str, ∀ v : Str,
      substitute (some out) text (some (.str v)) =
        .ok (some (replaceFirst out text v))) ∧
    (∀ out : Option Str, ∀ text : Str, substitute out text none = .ok out) ∧
    (∀ s pat val : Str,
      (∃ pre post, s = pre ++ pat ++ post) →
      ∃ pre post, s = pre ++ pat ++ post ∧
        replaceFirst s pat val = pre ++ val ++ post ∧
        ∀ pre' post' : Str, s = pre' ++ pat ++ post' →
          pre.length ≤ pre'.length) :=
  ⟨finditer_scansTo, fun _ _ _ => rfl, fun _ _ => rfl,
   fun s pat val h => replaceFirst_spec s pat val h⟩

/-- Witness for the amended C5 at concrete inputs: the scanner
decomposition of a two-placeholder format string, and a first-occurrence
replacement where the pattern occurs twice. -/
theorem leftmost_scan_and_first_occurrence_replacement_witness :
    scansTo (chars "a $jobid b $jobid") (finditer (chars "a $jobid b $jobid")) ∧
    (∃ pre post : Str, chars "x $env:b y $env:b" =
        pre ++ chars "$env:b" ++ post ∧
      replaceFirst (chars "x $env:b y $env:b") (chars "$env:b") (chars "Z") =
        pre ++ chars "Z" ++ post ∧
      ∀ pre' post' : Str, chars "x $env:b y $env:b" =
          pre' ++ chars "$env:b" ++ post' →
        pre.length ≤ pre'.length) := by
  constructor
  · exact leftmost_scan_and_first_occurrence_replacement.1
      (chars "a $jobid b $jobid")
  · exact leftmost_scan_and_first_occurrence_replacement.2.2.2
      (chars "x $env:b y $env:b") (chars "$env:b") (chars "Z")
      ⟨chars "x ", chars " y $env:b", by decide⟩

/-- C6: when a scanned placeholder carries a trailing regex that
compiles, extraction is re-run over the CURRENT full output string and
its result replaces the output wholesale: a no-match makes the output
absent (`None`), a successful extraction makes the entire output just
the extracted value.  Concretely, `{"sku": "$field:url,r'item_no=(\d+)'"}`
applied to a record whose `url` is
`http://www.example.com/product.html?item_no=345` sets `sku` to `345`. -/
theorem regex_narrowing_replaces_entire_output
    (eng : RegexEngine) (m : PMatch) (rx : Str) (st : RunState) (cp : RE)
    (hm : m.regex = some rx) (hrx : rx ≠ [])
    (hok : alookup st.cache.regexes rx = some cp)
    (hne : alookup st.cache.regexErrors rx = none) :
    (∀ out, applyRegex eng m out st =
      (st, (extractRegexGroup eng rx out st.cache).2)) ∧
    (∀ t, eng.search cp t = none →
      applyRegex eng m (some t) st = (st, .ok none)) ∧
    (∀ t gs, eng.search cp t = some gs → (∀ g ∈ gs, g.isSome) →
      gs.foldr (fun g acc => g.getD [] ++ acc) [] ≠ [] →
      applyRegex eng m (some t) st =
        (st, .ok (some (gs.foldr (fun g acc => g.getD [] ++ acc) [])))) ∧
    (processItem pyEngine egCtx
        [(chars "sku", chars "$field:url,r'item_no=(\\d+)'")] st0
        [(chars "url",
          some (chars "http://www.example.com/product.html?item_no=345"))]).2
      = .ok [(chars "url",
          some (chars "http://www.example.com/product.html?item_no=345")),
         (chars "sku", some (chars "345"))] := by
  have ha : ∀ out, applyRegex eng m out st =
      (st, (extractRegexGroup eng rx out st.cache).2) := by
    intro out
    simp only [applyRegex, hm]
    rw [if_neg hrx, extract_cached_ok eng rx out st.cache cp hok hne]
    cases out with
    | none => rfl
    | some t =>
        cases hs : eng.search cp t with
        | none => simp [hs]
        | some gs =>
            by_cases hall : gs.all (fun g => g.isSome)
            · by_cases hj : gs.foldr (fun g acc => g.getD [] ++ acc) [] = [] <;>
                simp [hs, hall, hj]
            · simp only [Bool.not_eq_true] at hall
              simp [hs, hall]
  refine ⟨ha, ?_, ?_, rfl⟩
  · intro t hs
    rw [ha (some t), extract_cached_ok eng rx (some t) st.cache cp hok hne]
    simp [hs]
  · intro t gs hs hall hj
    rw [ha (some t), extract_cached_ok eng rx (some t) st.cache cp hok hne]
    have ha' : gs.all (fun g => g.isSome) = true := by
      rw [List.all_eq_true]
      intro g hg
      exact hall g hg
    simp [hs, ha', hj]

/-- Witness for C6 at a concrete input: the cached pattern `(a)` applied
to the current output `xay` replaces the whole output by the extracted
group `a`. -/
theorem regex_narrowing_replaces_entire_output_witness :
    applyRegex pyEngine
        ⟨chars "$field:u,r'(a)'", chars "$field", some (chars ":u"),
          some (chars "(a)")⟩
        (some (chars "xay"))
        ⟨⟨[(chars "(a)",
            RE.seqr .eps (.group 1 (.seqr .eps (.lit 'a'))))], []⟩, []⟩ =
      (⟨⟨[(chars "(a)",
            RE.seqr .eps (.group 1 (.seqr .eps (.lit 'a'))))], []⟩, []⟩,
       .ok (some (chars "a"))) := by
  have h := ((regex_narrowing_replaces_entire_output pyEngine
    ⟨chars "$field:u,r'(a)'", chars "$field", some (chars ":u"),
      some (chars "(a)")⟩ (chars "(a)")
    ⟨⟨[(chars "(a)",
        RE.seqr .eps (.group 1 (.seqr .eps (.lit 'a'))))], []⟩, []⟩
    (RE.seqr .eps (.group 1 (.seqr .eps (.lit 'a'))))
    rfl (by decide) rfl rfl).2.2.1 (chars "xay") [some (chars "a")]
    rfl (by decide) (by decide))
  exact h.trans (by decide)

theorem formatMatches_single (eng : RegexEngine) (ctx : Ctx) (item : Item)
    (m : PMatch) (st : RunState) (out : Option Str) :
    formatMatches eng ctx item [m] st out =
      formatStep eng ctx item st out m := by
  unfold formatMatches
  rcases h : formatStep eng ctx item st out m with ⟨st', r⟩
  cases r <;> simp [formatMatches]

/-- C1 counterexample: a `$setting` placeholder whose key is absent from
the settings mapping does NOT leave the placeholder unresolved with a
warning — the `KeyError` from `val[attr]` is not caught anywhere in
`_format` (which only catches `ValueError` around regex extraction), so
it propagates out of the per-record entry point, aborting the record's
remaining fields and all following records, with nothing logged. -/
theorem setting_key_error_aborts_counterexample :
    processItem pyEngine egCtx [(chars "f", chars "$setting:FOO")] st0 [] =
      (st0, .error (.keyError (chars "FOO"))) ∧
    processSpiderOutput pyEngine egCtx
        [(chars "f", chars "$setting:FOO")] [[], []] st0 =
      (st0, .error ([], .keyError (chars "FOO"))) :=
  ⟨rfl, rfl⟩

/-- C1 (amended): missing-attribute, missing-argument, unknown-entity and
invalid-regex failures are caught at the formatter — `_format` returns
normally with the failing placeholder left unresolved and a warning
logged (silently for an unknown entity); but a `$setting` placeholder
whose key is absent raises a lookup error that propagates uncaught (and
unlogged) out of `_format`, aborting augmentation. -/
theorem error_containment_policy (eng : RegexEngine) (ctx : Ctx)
    (item : Item) (st : RunState) :
    (ctx.spiderAttrs (chars "foo") = none →
      format eng ctx item (chars "$spider:foo") st =
        (⟨st.cache, st.log ++
          [chars "Error at '$spider:foo': spider does not have attribute"]⟩,
         .ok (some (chars "$spider:foo")))) ∧
    (format eng ctx item (chars "$spider") st =
      (⟨st.cache, st.log ++
        [chars "Error at '$spider': spider does not have attribute"]⟩,
       .ok (some (chars "$spider")))) ∧
    (ctx.responseAttrs (chars "foo") = none →
      format eng ctx item (chars "$response:foo") st =
        (⟨st.cache, st.log ++
          [chars "Error at '$response:foo': response does not have attribute"]⟩,
         .ok (some (chars "$response:foo")))) ∧
    (format eng ctx item (chars "$unknown") st =
      (st, .ok (some (chars "$unknown")))) ∧
    (∀ e, eng.compile (chars "(") = .error e → e ≠ [] →
      alookup st.cache.regexes (chars "(") = none →
      alookup st.cache.regexErrors (chars "(") = none →
      (∃ o, (format eng ctx item (chars "$jobid,r'('") st).2 =
        .ok (some o)) ∧
      (format eng ctx item (chars "$jobid,r'('") st).1.log =
        st.log ++ [chars "Error at '$jobid,r'('': " ++ e]) ∧
    (alookup ctx.settings (chars "FOO") = none →
      format eng ctx item (chars "$setting:FOO") st =
        (st, .error (.keyError (chars "FOO")))) := by
  refine ⟨?_, ?_, ?_, ?_, ?_, ?_⟩
  · intro h
    have hargs : (parseArgs (some (chars ":foo"))).head? =
        some (chars "foo") := rfl
    simp only [chars] at hargs h
    simp [format, finditer, finditerAux, matchAt, argsSplit, regexSplit,
      regexText, formatMatches, formatStep, resolveVal, substitute,
      applyRegex, replaceFirst, startsWith, chars, isWordCh, isLowerAZ,
      isDigitCh, lastQuoteSplit, h, hargs]
  · simp [format, finditer, finditerAux, matchAt, argsSplit, regexSplit,
      regexText, formatMatches, formatStep, resolveVal, substitute,
      applyRegex, replaceFirst, startsWith, chars, isWordCh, isLowerAZ,
      isDigitCh, lastQuoteSplit, parseArgs]
  · intro h
    have hargs : (parseArgs (some (chars ":foo"))).head? =
        some (chars "foo") := rfl
    simp only [chars] at hargs h
    simp [format, finditer, finditerAux, matchAt, argsSplit, regexSplit,
      regexText, formatMatches, formatStep, resolveVal, substitute,
      applyRegex, replaceFirst, startsWith, chars, isWordCh, isLowerAZ,
      isDigitCh, lastQuoteSplit, h, hargs]
  · have h0 : format eng ctx item (chars "$unknown") st =
        (⟨st.cache, st.log ++ []⟩, .ok (some (chars "$unknown"))) := rfl
    rw [h0]
    simp
  · intro e hce hne hfr hfe
    have h0 : format eng ctx item (chars "$jobid,r'('") st =
        formatMatches eng ctx item
          [⟨chars "$jobid,r'('", chars "$jobid", none, some (chars "(")⟩]
          st (some (chars "$jobid,r'('")) := rfl
    rw [h0, formatMatches_single]
    have h1 : formatStep eng ctx item st (some (chars "$jobid,r'('"))
        ⟨chars "$jobid,r'('", chars "$jobid", none, some (chars "(")⟩ =
        applyRegex eng
          ⟨chars "$jobid,r'('", chars "$jobid", none, some (chars "(")⟩
          (some ((ctx.env (chars "SCRAPY_JOB")).getD [] ++ []))
          ⟨st.cache, st.log ++ []⟩ := rfl
    rw [h1]
    simp only [applyRegex]
    rw [if_neg (by decide : ¬ (chars "(" = []))]
    rw [extract_fresh_err eng (chars "(")
      (some ((ctx.env (chars "SCRAPY_JOB")).getD [] ++ []))
      st.cache e hfr hfe hce]
    rw [if_neg hne]
    constructor
    · exact ⟨_, rfl⟩
    · simp
      rfl
  · intro h
    have hargs : (parseArgs (some (chars ":FOO"))).head? =
        some (chars "FOO") := rfl
    simp only [chars] at hargs h
    simp [format, finditer, finditerAux, matchAt, argsSplit, regexSplit,
      regexText, formatMatches, formatStep, resolveVal, substitute,
      applyRegex, replaceFirst, startsWith, chars, isWordCh, isLowerAZ,
      isDigitCh, lastQuoteSplit, h, hargs]

/-- Witness for the amended C1 at a concrete context (no spider or
response attributes, empty settings): the spider-attribute failure is
contained and logged, while the settings-key failure escapes as a
`KeyError`. -/
theorem error_containment_policy_witness :
    egCtx.spiderAttrs (chars "foo") = none ∧
    format pyEngine egCtx [] (chars "$spider:foo") st0 =
      (⟨st0.cache, st0.log ++
        [chars "Error at '$spider:foo': spider does not have attribute"]⟩,
       .ok (some (chars "$spider:foo"))) ∧
    alookup egCtx.settings (chars "FOO") = none ∧
    format pyEngine egCtx [] (chars "$setting:FOO") st0 =
      (st0, .error (.keyError (chars "FOO"))) :=
  ⟨rfl,
   (error_containment_policy pyEngine egCtx [] st0).1 rfl,
   rfl,
   (error_containment_policy pyEngine egCtx [] st0).2.2.2.2.2 rfl⟩

end MagicFields
